import Mathlib

/-!
Shallow embedding of the referral-tracking bot (`src/bot.py`).

The bot keeps three keyed stores: `users` (user id → account record),
`referrals` (referred id → referrer id, the completed-referral ledger) and
`pending_referrals` (referred id → referrer id, the claimed-but-unconfirmed
attributions).  Python dicts / Mongo collections keyed by a single field are
embedded as association lists over `Nat` keys; dict assignment and Mongo
`update_one(..., upsert=True)` become `upsert`, `delete_one` / `del` become
`eraseKey`.  Monetary amounts (Python floats holding small decimals) are
embedded as `ℚ`; timestamps (`joined_at`, `last_active`, `date`, `created_at`)
carry no logic and are omitted.  Fire-and-forget `asyncio.create_task`
mutations are applied in program order, matching the single-lock sequential
semantics of the source.
-/

namespace EarningBot

/-- First-match association-list lookup over `Nat` keys
(Python `dict[k]` / Mongo `find_one` on the key field). -/
def alookup (k : Nat) : List (Nat × α) → Option α
  | [] => none
  | (k', v) :: rest => if k' = k then some v else alookup k rest

/-- Upsert: replace the first binding of `k` in place, or append a new one
(Python `d[k] = v`; Mongo `update_one(..., upsert=True)`). -/
def upsert (k : Nat) (v : α) : List (Nat × α) → List (Nat × α)
  | [] => [(k, v)]
  | (k', v') :: rest => if k' = k then (k, v) :: rest else (k', v') :: upsert k v rest

/-- Remove the first binding of `k` (Python `del d[k]`; Mongo `delete_one`). -/
def eraseKey (k : Nat) : List (Nat × α) → List (Nat × α)
  | [] => []
  | (k', v) :: rest => if k' = k then rest else (k', v) :: eraseKey k rest

theorem alookup_upsert_self (k : Nat) (v : α) (l : List (Nat × α)) :
    alookup k (upsert k v l) = some v := by
  induction l with
  | nil => simp [alookup, upsert]
  | cons hd tl ih =>
    obtain ⟨k', v'⟩ := hd
    by_cases h : k' = k
    · simp [alookup, upsert, h]
    · simp [alookup, upsert, h, ih]

theorem alookup_upsert_ne {k k' : Nat} (h : k' ≠ k) (v : α) (l : List (Nat × α)) :
    alookup k' (upsert k v l) = alookup k' l := by
  have hk : ¬ k = k' := fun hh => h hh.symm
  induction l with
  | nil => simp [alookup, upsert, hk]
  | cons hd tl ih =>
    obtain ⟨a, b⟩ := hd
    by_cases ha : a = k
    · subst ha
      simp [alookup, upsert, hk]
    · simp [alookup, upsert, ha, ih]

theorem alookup_eq_none_of_not_mem {k : Nat} {l : List (Nat × α)}
    (h : k ∉ l.map Prod.fst) : alookup k l = none := by
  induction l with
  | nil => rfl
  | cons hd tl ih =>
    obtain ⟨a, b⟩ := hd
    simp only [List.map_cons, List.mem_cons] at h
    push_neg at h
    have ha : ¬ a = k := fun hh => h.1 hh.symm
    simp [alookup, ha, ih h.2]

theorem alookup_eraseKey_self {k : Nat} {l : List (Nat × α)}
    (h : (l.map Prod.fst).Nodup) : alookup k (eraseKey k l) = none := by
  induction l with
  | nil => rfl
  | cons hd tl ih =>
    obtain ⟨a, b⟩ := hd
    simp only [List.map_cons, List.nodup_cons] at h
    by_cases ha : a = k
    · subst ha
      simpa [eraseKey] using alookup_eq_none_of_not_mem h.1
    · simp [eraseKey, alookup, ha, ih h.2]

theorem mem_keys_upsert {a k : Nat} (v : α) {l : List (Nat × α)}
    (h : a ∈ (upsert k v l).map Prod.fst) : a = k ∨ a ∈ l.map Prod.fst := by
  induction l with
  | nil => simpa [upsert] using h
  | cons hd tl ih =>
    obtain ⟨x, y⟩ := hd
    by_cases hx : x = k
    · subst hx
      simpa [upsert] using h
    · simp only [upsert, hx, if_false, List.map_cons, List.mem_cons] at h ⊢
      rcases h with h | h
      · exact Or.inr (Or.inl h)
      · rcases ih h with h' | h'
        · exact Or.inl h'
        · exact Or.inr (Or.inr h')

theorem nodup_keys_upsert (k : Nat) (v : α) {l : List (Nat × α)}
    (h : (l.map Prod.fst).Nodup) : ((upsert k v l).map Prod.fst).Nodup := by
  induction l with
  | nil => simp [upsert]
  | cons hd tl ih =>
    obtain ⟨x, y⟩ := hd
    simp only [List.map_cons, List.nodup_cons] at h
    by_cases hx : x = k
    · subst hx
      have hu : upsert x v ((x, y) :: tl) = (x, v) :: tl := by simp [upsert]
      rw [hu]
      simp only [List.map_cons, List.nodup_cons]
      exact h
    · simp only [upsert, hx, if_false, List.map_cons, List.nodup_cons]
      refine ⟨fun hmem => ?_, ih h.2⟩
      rcases mem_keys_upsert v hmem with h' | h'
      · exact hx h'
      · exact h.1 h'

theorem upsert_upsert_self (k : Nat) (v w : α) (l : List (Nat × α)) :
    upsert k w (upsert k v l) = upsert k w l := by
  induction l with
  | nil => simp [upsert]
  | cons hd tl ih =>
    obtain ⟨x, y⟩ := hd
    by_cases hx : x = k
    · simp [upsert, hx]
    · simp [upsert, hx, ih]

/-- One entry of a user's bounded transaction log
(`UserManager.add_transaction`, `src/bot.py:639-645`; the `date` field is a
wall-clock string with no logic and is omitted). -/
structure Transaction where
  id : Nat
  amount : ℚ
  type : String
  description : String
deriving DecidableEq, Repr

/-- A user account record (`UserManager.get_user`, `src/bot.py:601-613`;
the `joined_at` / `last_active` timestamps are omitted). -/
structure UserData where
  user_id : Nat
  balance : ℚ
  referral_code : String
  referral_count : Nat
  total_earned : ℚ
  total_withdrawn : ℚ
  transactions : List Transaction
  has_joined_channels : Bool
  welcome_bonus_received : Bool
deriving DecidableEq, Repr

/-- The shared mutable maps owned by `DataManager` plus the
pending-referrals store (`Storage` pending-referral methods):
`users` keyed by user id, `referrals` keyed by referred id (value the
referrer id), `pending` keyed by referred id (value the referrer id). -/
structure BotState where
  users : List (Nat × UserData)
  referrals : List (Nat × Nat)
  pending : List (Nat × Nat)
deriving DecidableEq, Repr

/-- The freshly initialised state (no users, no referrals, nothing pending). -/
def emptyState : BotState := ⟨[], [], []⟩

/-- The record created for a first-time user (`src/bot.py:601-613`). -/
def defaultUser (uid : Nat) : UserData :=
  { user_id := uid
    balance := 0
    referral_code := "REF" ++ toString uid
    referral_count := 0
    total_earned := 0
    total_withdrawn := 0
    transactions := []
    has_joined_channels := false
    welcome_bonus_received := false }

/-- `UserManager.get_user` (`src/bot.py:590-620`): return the stored record,
or create, store and return a fresh default record. -/
def getUser (s : BotState) (uid : Nat) : UserData × BotState :=
  match alookup uid s.users with
  | some u => (u, s)
  | none => (defaultUser uid, { s with users := upsert uid (defaultUser uid) s.users })

/-- `UserManager.update_user` (`src/bot.py:622-632`): apply field updates to
an existing record; silently a no-op when the user is unknown. -/
def updateUser (s : BotState) (uid : Nat) (f : UserData → UserData) : BotState :=
  match alookup uid s.users with
  | some u => { s with users := upsert uid (f u) s.users }
  | none => s

/-- The retention step of `UserManager.add_transaction`
(`src/bot.py:652-654`): keep only the last 20 transactions. -/
def truncTx (l : List Transaction) : List Transaction :=
  if l.length > 20 then l.drop (l.length - 20) else l

/-- `UserManager.add_transaction` (`src/bot.py:634-656`): fetch (or create)
the user, append a record with `id = len(transactions) + 1`, truncate to the
last 20 entries, and write the record back. -/
def addTransaction (s : BotState) (uid : Nat) (amount : ℚ)
    (txType : String) (desc : String) : BotState :=
  let p := getUser s uid
  let u := p.1
  let s1 := p.2
  let tx : Transaction :=
    { id := u.transactions.length + 1, amount := amount, type := txType, description := desc }
  updateUser s1 uid (fun _ => { u with transactions := truncTx (u.transactions ++ [tx]) })

/-- `UserManager.is_referred` (`src/bot.py:658-662`). -/
def isReferred (s : BotState) (uid : Nat) : Bool :=
  (alookup uid s.referrals).isSome

/-- `UserManager.add_referral` (`src/bot.py:672-713`): reject self-referral
and already-referred users; otherwise record the completed referral, credit
the referrer 1.0, bump `referral_count` and `total_earned`, and log a credit
transaction for the referrer. -/
def addReferral (s : BotState) (referrerId referredId : Nat) : BotState × Bool :=
  if referrerId = referredId then (s, false)
  else
    match alookup referredId s.referrals with
    | some _ => (s, false)
    | none =>
      let s1 : BotState := { s with referrals := upsert referredId referrerId s.referrals }
      let p := getUser s1 referrerId
      let r := p.1
      let s2 := p.2
      let s3 := updateUser s2 referrerId (fun v =>
        { v with balance := r.balance + 1
                 referral_count := r.referral_count + 1
                 total_earned := r.total_earned + 1 })
      let s4 := addTransaction s3 referrerId 1 "credit"
        ("Referral bonus for user " ++ toString referredId)
      (s4, true)

/-- `UserManager.add_pending_referral` via
`Storage._save_pending_referral_sync` (`src/bot.py:355-378`): upsert keyed by
the referred id. -/
def addPendingReferral (s : BotState) (referrerId referredId : Nat) : BotState :=
  { s with pending := upsert referredId referrerId s.pending }

/-- `UserManager.get_pending_referrer` via
`Storage._get_pending_referrer_sync` (`src/bot.py:418-438`). -/
def getPendingReferrer (s : BotState) (referredId : Nat) : Option Nat :=
  alookup referredId s.pending

/-- `UserManager.remove_pending_referral` via
`Storage._remove_pending_referral_sync` (`src/bot.py:390-405`). -/
def removePendingReferral (s : BotState) (referredId : Nat) : BotState :=
  { s with pending := eraseKey referredId s.pending }

/-- `UserManager.give_welcome_bonus` (`src/bot.py:731-758`): gated by the
`welcome_bonus_received` flag; on success credit 1.0 to balance and
`total_earned`, set the flag, and log a credit transaction. -/
def giveWelcomeBonus (s : BotState) (uid : Nat) : BotState × Bool :=
  let p := getUser s uid
  let u := p.1
  let s1 := p.2
  if u.welcome_bonus_received then (s1, false)
  else
    let s2 := updateUser s1 uid (fun v =>
      { v with balance := u.balance + 1
               welcome_bonus_received := true
               total_earned := u.total_earned + 1 })
    (addTransaction s2 uid 1 "credit" "Welcome bonus", true)

/-- The record through which a claim's conclusions observe one user:
the stored record if present, else the defaults a fresh record would get. -/
def viewUser (s : BotState) (uid : Nat) : UserData :=
  (alookup uid s.users).getD (defaultUser uid)

/-- The linear scan resolving a referral code to a user id
(`start_command`, `src/bot.py:942-946`): first stored user whose
`referral_code` equals the presented code. -/
def resolveCode (users : List (Nat × UserData)) (code : String) : Option Nat :=
  (users.find? (fun p => p.2.referral_code == code)).map Prod.fst

/-- The referral-parameter block of `start_command` (`src/bot.py:936-951`):
when the argument starts with `REF`, the user is not already
completed-referred, the code resolves to a truthy referrer distinct from the
user, and no truthy pending entry exists, record a pending referral.
Python truthiness: `if referrer_found` and `if not existing_pending` treat
`0` like `None`. -/
def claimPending (s : BotState) (uid : Nat) (code : String) : BotState :=
  if code.startsWith "REF" then
    if isReferred s uid then s
    else
      match resolveCode s.users code with
      | none => s
      | some r =>
        if r ≠ 0 ∧ r ≠ uid then
          match getPendingReferrer s uid with
          | none => addPendingReferral s r uid
          | some p => if p = 0 then addPendingReferral s r uid else s
        else s
  else s

/-- The pending-referral promotion block shared by `start_command`
(`src/bot.py:968-972`) and `verify_join_callback` (`src/bot.py:1086-1090`):
if a truthy pending referrer exists and the user is not already
completed-referred, run `add_referral` and remove the pending entry.
The boolean is `add_referral`'s promotion-occurred result. -/
def promoteIfPending (s : BotState) (uid : Nat) : BotState × Bool :=
  match getPendingReferrer s uid with
  | none => (s, false)
  | some r =>
    if r ≠ 0 ∧ ¬ isReferred s uid then
      let p := addReferral s r uid
      (removePendingReferral p.1 uid, p.2)
    else (s, false)

/-- A configured channel (`DataManager.add_channel_from_env`,
`src/bot.py:517-521`; `added_at` omitted). -/
structure Channel where
  chat_id : String
  name : String
deriving DecidableEq, Repr

/-- Outcome of one `bot.get_chat_member` probe as observed by
`check_single_channel_fast` (`src/bot.py:826-850`): a member status string,
a per-probe timeout, or an API error. -/
inductive ProbeResult where
  | success (status : String)
  | timeout
  | err
deriving DecidableEq, Repr

/-- `check_single_channel_fast` (`src/bot.py:826-850`): joined iff the probe
succeeded with a status other than `left`/`kicked`; timeouts and errors
report not-joined. -/
def checkSingleChannelFast (r : ProbeResult) : Bool :=
  match r with
  | .success status => status != "left" && status != "kicked"
  | .timeout => false
  | .err => false

/-- `check_channel_membership` (`src/bot.py:760-824`) with its external
inputs made explicit: `cached` is the (still fresh) cache entry if any,
`probe` the per-channel probe outcome, and `done` whether the channel's
probe task completed before the overall `asyncio.wait` deadline (a task
cancelled at the deadline contributes no entry to `channel_results`, so its
channel defaults to not-joined).  Returns `(allJoined, notJoined)`. -/
def checkChannelMembership (channels : List Channel)
    (cached : Option (Bool × List Channel))
    (probe : Channel → ProbeResult) (done : Channel → Bool) :
    Bool × List Channel :=
  if channels.isEmpty then (true, [])
  else
    match cached with
    | some r => r
    | none =>
      let notJoined := channels.filter
        (fun c => !(done c && checkSingleChannelFast (probe c)))
      (notJoined.isEmpty, notJoined)

/-- Outcome of the `asyncio.wait_for(check_channel_membership ..., 5.0)`
call inside `start_command` / `verify_join_callback`: either the check's
result, or the coordinator-level timeout (which degrades to the main
menu with no ledger mutation). -/
inductive MembershipOutcome where
  | result (hasJoined : Bool) (notJoined : List Channel)
  | timedOut
deriving DecidableEq, Repr

/-- The all-joined branch shared by `start_command` (`src/bot.py:962-978`)
and `verify_join_callback` (`src/bot.py:1080-1096`): mark
`has_joined_channels`, grant the welcome bonus, then promote any pending
referral — in that fixed order. -/
def joinedBranch (s : BotState) (uid : Nat) : BotState :=
  let s1 := updateUser s uid (fun v => { v with has_joined_channels := true })
  let s2 := (giveWelcomeBonus s1 uid).1
  (promoteIfPending s2 uid).1

/-- `start_command` (`src/bot.py:923-989`): create/fetch the user, process
an optional referral argument, then branch on the membership outcome.
`show_join_buttons` / `show_main_menu` only render output and are dropped;
the not-joined branch (`has_joined` false and `not_joined` nonempty)
performs no further state change. -/
def startCommand (s : BotState) (uid : Nat) (arg : Option String)
    (m : MembershipOutcome) : BotState :=
  let s1 := (getUser s uid).2
  let s2 := match arg with
    | some code => claimPending s1 uid code
    | none => s1
  match m with
  | .timedOut => s2
  | .result hasJoined notJoined =>
    if !hasJoined && !notJoined.isEmpty then s2
    else joinedBranch s2 uid

/-- User-visible outcome of `/withdraw` (`withdraw_command`,
`src/bot.py:1198-1249`). -/
inductive WithdrawResult where
  | belowMin
  | insufficient
  | ok (newBalance : ℚ)
deriving DecidableEq, Repr

/-- `withdraw_command` amount handling (`src/bot.py:1198-1249`): reject
amounts below 10, then reject amounts above the balance; otherwise debit
the balance, credit `total_withdrawn`, and log a withdrawal transaction of
`-amount`. -/
def withdrawCommand (s : BotState) (uid : Nat) (amount : ℚ) (method : String) :
    BotState × WithdrawResult :=
  if amount < 10 then (s, .belowMin)
  else
    let p := getUser s uid
    let u := p.1
    let s1 := p.2
    if u.balance < amount then (s1, .insufficient)
    else
      let newBalance := u.balance - amount
      let s2 := updateUser s1 uid (fun v =>
        { v with balance := newBalance
                 total_withdrawn := u.total_withdrawn + amount })
      let s3 := addTransaction s2 uid (-amount) "withdrawal" ("Withdrawal via " ++ method)
      (s3, .ok newBalance)

/-- `n` repeated invocations of `give_welcome_bonus` for the same user. -/
def iterWelcome (uid : Nat) : Nat → BotState → BotState
  | 0, s => s
  | n + 1, s => iterWelcome uid n (giveWelcomeBonus s uid).1

/-- `n` repeated invocations of `add_transaction` with fixed arguments
(used to exercise the sequence-id scheme). -/
def iterAddTx (uid : Nat) (amount : ℚ) (txType desc : String) :
    Nat → BotState → BotState
  | 0, s => s
  | n + 1, s => iterAddTx uid amount txType desc n (addTransaction s uid amount txType desc)

/-! ### Characterisation lemmas for the ledger operations -/

theorem getUser_some {s : BotState} {uid : Nat} {u : UserData}
    (h : alookup uid s.users = some u) : getUser s uid = (u, s) := by
  simp [getUser, h]

theorem getUser_none {s : BotState} {uid : Nat}
    (h : alookup uid s.users = none) :
    getUser s uid = (defaultUser uid, { s with users := upsert uid (defaultUser uid) s.users }) := by
  simp [getUser, h]

theorem viewUser_some {s : BotState} {uid : Nat} {u : UserData}
    (h : alookup uid s.users = some u) : viewUser s uid = u := by
  simp [viewUser, h]

theorem viewUser_none {s : BotState} {uid : Nat}
    (h : alookup uid s.users = none) : viewUser s uid = defaultUser uid := by
  simp [viewUser, h]

/-- The transaction record `add_transaction` builds for the current log. -/
def nextTx (u : UserData) (a : ℚ) (ty d : String) : Transaction :=
  { id := u.transactions.length + 1, amount := a, type := ty, description := d }

theorem addTransaction_eq (s : BotState) (uid : Nat) (a : ℚ) (ty d : String) :
    addTransaction s uid a ty d =
      { s with
          users := upsert uid
            ({ viewUser s uid with
                transactions := truncTx ((viewUser s uid).transactions ++
                  [nextTx (viewUser s uid) a ty d]) }) s.users } := by
  cases h : alookup uid s.users with
  | some u =>
    simp [addTransaction, getUser, updateUser, viewUser, nextTx, h]
  | none =>
    simp [addTransaction, getUser, updateUser, viewUser, nextTx, h,
      alookup_upsert_self, upsert_upsert_self]

/-- The record stored for `uid` after a successful welcome bonus. -/
def welcomeUpdated (u : UserData) : UserData :=
  { u with balance := u.balance + 1
           welcome_bonus_received := true
           total_earned := u.total_earned + 1
           transactions := truncTx (u.transactions ++ [nextTx u 1 "credit" "Welcome bonus"]) }

theorem giveWelcomeBonus_already {s : BotState} {uid : Nat}
    (h : (viewUser s uid).welcome_bonus_received = true) :
    giveWelcomeBonus s uid = (s, false) := by
  cases hu : alookup uid s.users with
  | some u =>
    rw [viewUser_some hu] at h
    simp [giveWelcomeBonus, getUser, hu, h]
  | none =>
    rw [viewUser_none hu] at h
    simp [defaultUser] at h

theorem giveWelcomeBonus_fresh {s : BotState} {uid : Nat}
    (h : (viewUser s uid).welcome_bonus_received = false) :
    giveWelcomeBonus s uid =
      ({ s with users := upsert uid (welcomeUpdated (viewUser s uid)) s.users }, true) := by
  cases hu : alookup uid s.users with
  | some u =>
    rw [viewUser_some hu] at h
    rw [viewUser_some hu]
    have h1 : alookup uid (upsert uid
        ({ u with balance := u.balance + 1
                  welcome_bonus_received := true
                  total_earned := u.total_earned + 1 }) s.users) = some
        { u with balance := u.balance + 1
                 welcome_bonus_received := true
                 total_earned := u.total_earned + 1 } := alookup_upsert_self _ _ _
    simp [giveWelcomeBonus, getUser, updateUser, hu, h, addTransaction, h1,
      upsert_upsert_self, welcomeUpdated, nextTx]
  | none =>
    rw [viewUser_none hu]
    have hdflt : (defaultUser uid).welcome_bonus_received = false := rfl
    have h0 : alookup uid (upsert uid (defaultUser uid) s.users) = some (defaultUser uid) :=
      alookup_upsert_self _ _ _
    have h1 : alookup uid (upsert uid
        ({ defaultUser uid with
            balance := (defaultUser uid).balance + 1
            welcome_bonus_received := true
            total_earned := (defaultUser uid).total_earned + 1 }) s.users) = some
        { defaultUser uid with
            balance := (defaultUser uid).balance + 1
            welcome_bonus_received := true
            total_earned := (defaultUser uid).total_earned + 1 } := alookup_upsert_self _ _ _
    simp [giveWelcomeBonus, getUser, updateUser, hu, hdflt, addTransaction, h0, h1,
      upsert_upsert_self, welcomeUpdated, nextTx]

/-- The referrer's record after a successful referral credit. -/
def referralUpdated (u : UserData) (referredId : Nat) : UserData :=
  { u with balance := u.balance + 1
           referral_count := u.referral_count + 1
           total_earned := u.total_earned + 1
           transactions := truncTx (u.transactions ++
             [nextTx u 1 "credit" ("Referral bonus for user " ++ toString referredId)]) }

theorem addReferral_success {s : BotState} {r f : Nat}
    (hne : r ≠ f) (hnew : alookup f s.referrals = none) :
    addReferral s r f =
      ({ s with
          users := upsert r (referralUpdated (viewUser s r) f) s.users
          referrals := upsert f r s.referrals }, true) := by
  cases hu : alookup r s.users with
  | some u =>
    rw [show viewUser s r = u from viewUser_some hu]
    have h1 : alookup r (upsert r
        ({ u with balance := u.balance + 1
                  referral_count := u.referral_count + 1
                  total_earned := u.total_earned + 1 }) s.users) = some
        { u with balance := u.balance + 1
                 referral_count := u.referral_count + 1
                 total_earned := u.total_earned + 1 } := alookup_upsert_self _ _ _
    simp [addReferral, hne, hnew, getUser, updateUser, addTransaction, hu, h1,
      upsert_upsert_self, referralUpdated, nextTx]
  | none =>
    rw [show viewUser s r = defaultUser r from viewUser_none hu]
    have h0 : alookup r (upsert r (defaultUser r) s.users) = some (defaultUser r) :=
      alookup_upsert_self _ _ _
    have h1 : alookup r (upsert r
        ({ defaultUser r with
            balance := (defaultUser r).balance + 1
            referral_count := (defaultUser r).referral_count + 1
            total_earned := (defaultUser r).total_earned + 1 }) s.users) = some
        { defaultUser r with
            balance := (defaultUser r).balance + 1
            referral_count := (defaultUser r).referral_count + 1
            total_earned := (defaultUser r).total_earned + 1 } := alookup_upsert_self _ _ _
    simp [addReferral, hne, hnew, getUser, updateUser, addTransaction, hu, h0, h1,
      upsert_upsert_self, referralUpdated, nextTx]

theorem truncTx_length (l : List Transaction) : (truncTx l).length = min l.length 20 := by
  unfold truncTx
  split
  · next h =>
    rw [List.length_drop]
    omega
  · next h => omega

theorem truncTx_append_getLast (l : List Transaction) (t : Transaction) :
    (truncTx (l ++ [t])).getLast? = some t := by
  unfold truncTx
  split
  · next h =>
    have hle : (l ++ [t]).length - 20 ≤ l.length := by
      simp only [List.length_append, List.length_singleton]
      omega
    rw [List.drop_append_of_le_length hle]
    exact List.getLast?_concat _
  · next h => exact List.getLast?_concat _

theorem iterWelcome_of_received {s : BotState} {uid : Nat}
    (h : (viewUser s uid).welcome_bonus_received = true) :
    ∀ n, iterWelcome uid n s = s := by
  intro n
  induction n with
  | zero => rfl
  | succ m ih =>
    show iterWelcome uid m (giveWelcomeBonus s uid).1 = s
    rw [giveWelcomeBonus_already h]
    exact ih

theorem viewUser_after_fresh_bonus {s : BotState} {uid : Nat}
    (h : (viewUser s uid).welcome_bonus_received = false) :
    viewUser (giveWelcomeBonus s uid).1 uid = welcomeUpdated (viewUser s uid) := by
  rw [giveWelcomeBonus_fresh h]
  exact viewUser_some (alookup_upsert_self _ _ _)

/-- **C2.** Welcome bonus at-most-once: a call made while
`welcome_bonus_received` is set returns `false` and leaves the state
untouched; a call on an unflagged user returns `true`, sets the flag,
adds 1.0 to balance and `total_earned`, appends one 1.0 credit transaction,
and any further calls (hence any number of repetitions) return `false` and
change nothing, so the balance is credited at most once in total. -/
theorem C2_welcome_bonus_at_most_once (s : BotState) (uid : Nat) :
    ((viewUser s uid).welcome_bonus_received = true →
      giveWelcomeBonus s uid = (s, false)) ∧
    ((viewUser s uid).welcome_bonus_received = false →
      (giveWelcomeBonus s uid).2 = true ∧
      (viewUser (giveWelcomeBonus s uid).1 uid).welcome_bonus_received = true ∧
      (viewUser (giveWelcomeBonus s uid).1 uid).balance = (viewUser s uid).balance + 1 ∧
      (viewUser (giveWelcomeBonus s uid).1 uid).total_earned =
        (viewUser s uid).total_earned + 1 ∧
      (viewUser (giveWelcomeBonus s uid).1 uid).transactions.getLast? =
        some (nextTx (viewUser s uid) 1 "credit" "Welcome bonus") ∧
      (viewUser (giveWelcomeBonus s uid).1 uid).transactions.length =
        min ((viewUser s uid).transactions.length + 1) 20 ∧
      giveWelcomeBonus (giveWelcomeBonus s uid).1 uid = ((giveWelcomeBonus s uid).1, false)) ∧
    (∀ n, (viewUser s uid).welcome_bonus_received = false →
      (viewUser (iterWelcome uid (n + 1) s) uid).balance = (viewUser s uid).balance + 1) := by
  refine ⟨giveWelcomeBonus_already, fun h => ?_, fun n h => ?_⟩
  · have hview := viewUser_after_fresh_bonus h
    have hflag : (viewUser (giveWelcomeBonus s uid).1 uid).welcome_bonus_received = true := by
      rw [hview]; rfl
    refine ⟨by rw [giveWelcomeBonus_fresh h], hflag, ?_, ?_, ?_, ?_,
      giveWelcomeBonus_already hflag⟩
    · rw [hview]; rfl
    · rw [hview]; rfl
    · rw [hview]
      exact truncTx_append_getLast _ _
    · rw [hview]
      show (truncTx _).length = _
      rw [truncTx_length]
      simp
  · have hview := viewUser_after_fresh_bonus h
    have hflag : (viewUser (giveWelcomeBonus s uid).1 uid).welcome_bonus_received = true := by
      rw [hview]; rfl
    show (viewUser (iterWelcome uid n (giveWelcomeBonus s uid).1) uid).balance = _
    rw [iterWelcome_of_received hflag, hview]
    rfl

/-- Closed witness for C2 at a fresh user in the empty state. -/
theorem C2_welcome_bonus_at_most_once_witness :
    (viewUser emptyState 7).welcome_bonus_received = false ∧
    (giveWelcomeBonus emptyState 7).2 = true ∧
    (viewUser (iterWelcome 7 3 emptyState) 7).balance = 1 := by
  have h := C2_welcome_bonus_at_most_once emptyState 7
  refine ⟨by decide, (h.2.1 (by decide)).1, ?_⟩
  have := h.2.2 2 (by decide)
  rw [this]
  show (viewUser emptyState 7).balance + 1 = 1
  norm_num [viewUser, emptyState, alookup, defaultUser]

/-- **C9.** `get_user` is an upsert: for an unknown id it creates, stores and
returns the default record (balance 0, code `REF<id>`, zeroed counters, empty
log, both flags false), and a second `get_user` returns that stored record
with no further state change. -/
theorem C9_get_user_upsert (s : BotState) (uid : Nat)
    (h : alookup uid s.users = none) :
    (getUser s uid).1 =
      { user_id := uid
        balance := 0
        referral_code := "REF" ++ toString uid
        referral_count := 0
        total_earned := 0
        total_withdrawn := 0
        transactions := []
        has_joined_channels := false
        welcome_bonus_received := false } ∧
    alookup uid (getUser s uid).2.users = some (getUser s uid).1 ∧
    getUser (getUser s uid).2 uid = ((getUser s uid).1, (getUser s uid).2) := by
  rw [getUser_none h]
  refine ⟨rfl, alookup_upsert_self _ _ _, ?_⟩
  exact getUser_some (alookup_upsert_self _ _ _)

/-- Closed witness for C9 at user id 5 in the empty state. -/
theorem C9_get_user_upsert_witness :
    alookup 5 emptyState.users = none ∧
    (getUser emptyState 5).1.referral_code = "REF5" ∧
    (getUser emptyState 5).1.balance = 0 := by
  have h := C9_get_user_upsert emptyState 5 (by decide)
  refine ⟨by decide, ?_, ?_⟩
  · rw [h.1]
    decide
  · rw [h.1]

/-- **C10.** Transaction retention bound: after any `add_transaction` the
stored log has at most 20 entries; if the log could absorb the new entry it
is simply appended, otherwise the oldest entries are dropped from the front
so that exactly the 20 most recent remain. -/
theorem C10_transaction_retention (s : BotState) (uid : Nat) (amount : ℚ)
    (ty d : String) :
    (viewUser (addTransaction s uid amount ty d) uid).transactions.length ≤ 20 ∧
    ((viewUser s uid).transactions.length + 1 ≤ 20 →
      (viewUser (addTransaction s uid amount ty d) uid).transactions =
        (viewUser s uid).transactions ++ [nextTx (viewUser s uid) amount ty d]) ∧
    ((viewUser s uid).transactions.length + 1 > 20 →
      (viewUser (addTransaction s uid amount ty d) uid).transactions =
        ((viewUser s uid).transactions ++ [nextTx (viewUser s uid) amount ty d]).drop
          ((viewUser s uid).transactions.length + 1 - 20)) := by
  have hview : viewUser (addTransaction s uid amount ty d) uid =
      { viewUser s uid with
          transactions := truncTx ((viewUser s uid).transactions ++
            [nextTx (viewUser s uid) amount ty d]) } := by
    rw [addTransaction_eq]
    exact viewUser_some (alookup_upsert_self _ _ _)
  rw [hview]
  refine ⟨?_, fun hle => ?_, fun hgt => ?_⟩
  · show (truncTx _).length ≤ 20
    rw [truncTx_length]
    omega
  · show truncTx _ = _
    unfold truncTx
    rw [if_neg]
    simp only [List.length_append, List.length_singleton]
    omega
  · show truncTx _ = _
    unfold truncTx
    rw [if_pos]
    · simp only [List.length_append, List.length_singleton]
    · simp only [List.length_append, List.length_singleton]
      omega

/-- Closed witness for C10: appending to a one-entry log. -/
theorem C10_transaction_retention_witness :
    (viewUser (addTransaction (addTransaction emptyState 4 1 "credit" "a") 4 2 "credit" "b") 4).transactions.length ≤ 20 ∧
    (viewUser (addTransaction (addTransaction emptyState 4 1 "credit" "a") 4 2 "credit" "b") 4).transactions =
      (viewUser (addTransaction emptyState 4 1 "credit" "a") 4).transactions ++
        [nextTx (viewUser (addTransaction emptyState 4 1 "credit" "a") 4) 2 "credit" "b"] := by
  have h := C10_transaction_retention (addTransaction emptyState 4 1 "credit" "a") 4 2 "credit" "b"
  exact ⟨h.1, h.2.1 (by decide)⟩

theorem mem_of_mem_truncTx {t : Transaction} {l : List Transaction}
    (h : t ∈ truncTx l) : t ∈ l := by
  unfold truncTx at h
  split at h
  · exact List.mem_of_mem_drop h
  · exact h

/-- **C8 (counterexample).** Sequence ids are not per-user strictly
monotonic: starting from the empty state, after 22 `add_transaction` calls
for user 1 the retained log's id column is `[3,…,20,21,21]` — the 22nd
transaction was appended after the 21st yet carries the same id 21, because
`id = len(transactions) + 1` and the log is capped at 20 entries. -/
theorem C8_sequence_ids_counterexample :
    ((viewUser (iterAddTx 1 1 "credit" "x" 22 emptyState) 1).transactions.map
        Transaction.id) =
      [3, 4, 5, 6, 7, 8, 9, 10, 11, 12, 13, 14, 15, 16, 17, 18, 19, 20, 21, 21] := by
  decide

/-- **C8 (amended).** Each appended transaction carries
`id = (retained log length) + 1`; under the reachable-state invariant that
the log holds at most 20 entries whose ids are at most `length + 1`, the new
id is greater than or equal to (not strictly greater than) every id in the
log, the appended record is the last entry of the new log, and the invariant
is preserved.  Strict growth stops once the log reaches the 20-entry bound:
from then on every new transaction carries id 21. -/
theorem C8_sequence_ids_amended (s : BotState) (uid : Nat) (amount : ℚ)
    (ty d : String)
    (hlen : (viewUser s uid).transactions.length ≤ 20)
    (hinv : ∀ t ∈ (viewUser s uid).transactions,
      t.id ≤ (viewUser s uid).transactions.length + 1) :
    ((viewUser (addTransaction s uid amount ty d) uid).transactions.getLast? =
      some (nextTx (viewUser s uid) amount ty d)) ∧
    (nextTx (viewUser s uid) amount ty d).id =
      (viewUser s uid).transactions.length + 1 ∧
    (∀ t ∈ (viewUser (addTransaction s uid amount ty d) uid).transactions,
      t.id ≤ (nextTx (viewUser s uid) amount ty d).id) ∧
    (viewUser (addTransaction s uid amount ty d) uid).transactions.length ≤ 20 ∧
    (∀ t ∈ (viewUser (addTransaction s uid amount ty d) uid).transactions,
      t.id ≤ (viewUser (addTransaction s uid amount ty d) uid).transactions.length + 1) := by
  have hview : viewUser (addTransaction s uid amount ty d) uid =
      { viewUser s uid with
          transactions := truncTx ((viewUser s uid).transactions ++
            [nextTx (viewUser s uid) amount ty d]) } := by
    rw [addTransaction_eq]
    exact viewUser_some (alookup_upsert_self _ _ _)
  rw [hview]
  have hmem : ∀ t ∈ truncTx ((viewUser s uid).transactions ++
      [nextTx (viewUser s uid) amount ty d]),
      t.id ≤ (viewUser s uid).transactions.length + 1 := by
    intro t ht
    rcases List.mem_append.1 (mem_of_mem_truncTx ht) with h | h
    · exact hinv t h
    · simp only [List.mem_singleton] at h
      subst h
      exact le_refl _
  refine ⟨truncTx_append_getLast _ _, rfl, fun t ht => hmem t ht, ?_, ?_⟩
  · show (truncTx _).length ≤ 20
    rw [truncTx_length]
    omega
  · intro t ht
    have h1 := hmem t ht
    have h2 : (truncTx ((viewUser s uid).transactions ++
        [nextTx (viewUser s uid) amount ty d])).length =
        min ((viewUser s uid).transactions.length + 1) 20 := by
      rw [truncTx_length]
      simp
    show t.id ≤ (truncTx _).length + 1
    rw [h2]
    omega

/-- Closed witness for the amended C8 on a one-entry log. -/
theorem C8_sequence_ids_amended_witness :
    (viewUser (addTransaction (addTransaction emptyState 9 1 "credit" "a") 9 1 "credit" "b") 9).transactions.getLast? =
      some (nextTx (viewUser (addTransaction emptyState 9 1 "credit" "a") 9) 1 "credit" "b") ∧
    (nextTx (viewUser (addTransaction emptyState 9 1 "credit" "a") 9) 1 "credit" "b").id = 2 := by
  have h := C8_sequence_ids_amended (addTransaction emptyState 9 1 "credit" "a") 9 1 "credit" "b"
    (by decide) (by decide)
  exact ⟨h.1, h.2.1⟩

/-- The user's record after a successful withdrawal. -/
def withdrawUpdated (u : UserData) (amount : ℚ) (method : String) : UserData :=
  { u with balance := u.balance - amount
           total_withdrawn := u.total_withdrawn + amount
           transactions := truncTx (u.transactions ++
             [nextTx u (-amount) "withdrawal" ("Withdrawal via " ++ method)]) }

theorem withdrawCommand_success {s : BotState} {uid : Nat} {amount : ℚ}
    (method : String) (hA : ¬ amount < 10)
    (hB : ¬ (viewUser s uid).balance < amount) :
    withdrawCommand s uid amount method =
      ({ s with users := upsert uid (withdrawUpdated (viewUser s uid) amount method) s.users },
        .ok ((viewUser s uid).balance - amount)) := by
  cases hu : alookup uid s.users with
  | some u =>
    rw [viewUser_some hu] at hB ⊢
    have h1 : alookup uid (upsert uid
        ({ u with balance := u.balance - amount
                  total_withdrawn := u.total_withdrawn + amount }) s.users) = some
        { u with balance := u.balance - amount
                 total_withdrawn := u.total_withdrawn + amount } := alookup_upsert_self _ _ _
    simp [withdrawCommand, hA, hB, getUser, updateUser, addTransaction, hu, h1,
      upsert_upsert_self, withdrawUpdated, nextTx]
  | none =>
    rw [viewUser_none hu] at hB
    exact absurd (by simpa [defaultUser] using hB) (by push_neg; linarith [not_lt.1 hA])

/-- **C3.** Withdrawal boundary and postcondition: an amount below 10 or
above the balance is rejected with balance, `total_withdrawn` and the
transaction log untouched (an amount below the minimum does not even read
the user); with `10 ≤ amount ≤ balance` the request succeeds, the balance
drops by the amount, `total_withdrawn` rises by it, and a `-amount`
withdrawal transaction is appended as the newest log entry. -/
theorem C3_withdraw_boundary (s : BotState) (uid : Nat) (amount : ℚ)
    (method : String) :
    (amount < 10 → withdrawCommand s uid amount method = (s, .belowMin)) ∧
    (¬ amount < 10 → (viewUser s uid).balance < amount →
      (withdrawCommand s uid amount method).2 = .insufficient ∧
      (viewUser (withdrawCommand s uid amount method).1 uid).balance =
        (viewUser s uid).balance ∧
      (viewUser (withdrawCommand s uid amount method).1 uid).total_withdrawn =
        (viewUser s uid).total_withdrawn ∧
      (viewUser (withdrawCommand s uid amount method).1 uid).transactions =
        (viewUser s uid).transactions) ∧
    (¬ amount < 10 → ¬ (viewUser s uid).balance < amount →
      (withdrawCommand s uid amount method).2 = .ok ((viewUser s uid).balance - amount) ∧
      (viewUser (withdrawCommand s uid amount method).1 uid).balance =
        (viewUser s uid).balance - amount ∧
      (viewUser (withdrawCommand s uid amount method).1 uid).total_withdrawn =
        (viewUser s uid).total_withdrawn + amount ∧
      (viewUser (withdrawCommand s uid amount method).1 uid).transactions.getLast? =
        some (nextTx (viewUser s uid) (-amount) "withdrawal" ("Withdrawal via " ++ method))) := by
  refine ⟨fun h => by simp [withdrawCommand, h], fun hA hB => ?_, fun hA hB => ?_⟩
  · cases hu : alookup uid s.users with
    | some u =>
      rw [viewUser_some hu] at hB
      have : withdrawCommand s uid amount method = (s, .insufficient) := by
        simp [withdrawCommand, hA, hB, getUser, hu]
      rw [this]
      exact ⟨rfl, rfl, rfl, rfl⟩
    | none =>
      rw [viewUser_none hu] at hB ⊢
      have : withdrawCommand s uid amount method =
          ({ s with users := upsert uid (defaultUser uid) s.users }, .insufficient) := by
        simp only [withdrawCommand, hA, getUser, hu, if_neg]
        simp [hB]
      rw [this]
      have hv : viewUser { s with users := upsert uid (defaultUser uid) s.users } uid =
          defaultUser uid := viewUser_some (alookup_upsert_self _ _ _)
      rw [hv]
      exact ⟨rfl, rfl, rfl, rfl⟩
  · rw [withdrawCommand_success method hA hB]
    have hv : viewUser
        { s with users := upsert uid (withdrawUpdated (viewUser s uid) amount method) s.users }
        uid = withdrawUpdated (viewUser s uid) amount method :=
      viewUser_some (alookup_upsert_self _ _ _)
    rw [hv]
    exact ⟨rfl, rfl, rfl, truncTx_append_getLast _ _⟩

/-- Closed witness for C3: amount 9 rejected below minimum, amount 10
rejected against a zero balance, and amount 10 succeeding after crediting a
welcome bonus is exercised elsewhere; here the two rejection arms and the
success arm are applied at concrete inputs. -/
theorem C3_withdraw_boundary_witness :
    withdrawCommand emptyState 3 9 "upi" = (emptyState, .belowMin) ∧
    (withdrawCommand emptyState 3 10 "upi").2 = .insufficient ∧
    (withdrawCommand ⟨[(3, { defaultUser 3 with balance := 25 })], [], []⟩ 3 10 "upi").2 =
      .ok 15 := by
  have h1 := (C3_withdraw_boundary emptyState 3 9 "upi").1 (by norm_num)
  have h2 := ((C3_withdraw_boundary emptyState 3 10 "upi").2.1 (by norm_num)
    (by norm_num [viewUser, emptyState, alookup, defaultUser])).1
  have h3 := ((C3_withdraw_boundary ⟨[(3, { defaultUser 3 with balance := 25 })], [], []⟩
    3 10 "upi").2.2 (by norm_num)
    (by norm_num [viewUser, alookup, defaultUser])).1
  refine ⟨h1, h2, ?_⟩
  rw [h3]
  norm_num [viewUser, alookup, defaultUser]

/-- Every run of the claim step either leaves the state unchanged or
records exactly one pending entry keyed by the claiming user. -/
theorem claimPending_cases (s : BotState) (F : Nat) (code : String) :
    claimPending s F code = s ∨
      ∃ r, claimPending s F code = addPendingReferral s r F := by
  unfold claimPending
  split
  · split
    · exact Or.inl rfl
    · split
      · exact Or.inl rfl
      · next r hres =>
        split
        · split
          · exact Or.inr ⟨r, rfl⟩
          · next p hp =>
            split
            · exact Or.inr ⟨r, rfl⟩
            · exact Or.inl rfl
        · exact Or.inl rfl
  · exact Or.inl rfl

/-- **C5.** Self-referral rejection: presenting a code that resolves to the
presenting user records nothing and has no side effect (the claim step is a
state identity), and `add_referral` with `referrer = referred` returns
`false` leaving the state untouched. -/
theorem C5_self_referral_rejected (s : BotState) (U : Nat) (code : String) :
    (resolveCode s.users code = some U → claimPending s U code = s) ∧
    addReferral s U U = (s, false) := by
  constructor
  · intro hres
    unfold claimPending
    split
    · split
      · rfl
      · rw [hres]
        simp
    · rfl
  · simp [addReferral]

/-- Closed witness for C5: user 5 presents their own code `REF5`. -/
theorem C5_self_referral_rejected_witness :
    resolveCode (getUser emptyState 5).2.users "REF5" = some 5 ∧
    claimPending (getUser emptyState 5).2 5 "REF5" = (getUser emptyState 5).2 := by
  have h := (C5_self_referral_rejected (getUser emptyState 5).2 5 "REF5").1 (by decide)
  exact ⟨by decide, h⟩

/-- **C4.** First-claim-wins for pending referrals: the claim step keeps the
pending store keyed uniquely by referred user, and whenever a (coordinator-
created, hence nonzero-referrer) pending entry for `F` already exists, any
later claim for `F` — whatever code, hence whatever other referrer `R2` it
resolves to — is a state identity, so the earlier entry persists unchanged. -/
theorem C4_first_claim_wins (s : BotState) (F : Nat) (code : String) :
    ((s.pending.map Prod.fst).Nodup →
      ((claimPending s F code).pending.map Prod.fst).Nodup) ∧
    (∀ R1, alookup F s.pending = some R1 → R1 ≠ 0 →
      claimPending s F code = s) := by
  constructor
  · intro hnd
    rcases claimPending_cases s F code with h | ⟨r, h⟩
    · rw [h]; exact hnd
    · rw [h]
      exact nodup_keys_upsert _ _ hnd
  · intro R1 hR1 hR1ne
    unfold claimPending
    split
    · split
      · rfl
      · split
        · rfl
        · next r hres =>
          split
          · unfold getPendingReferrer
            rw [hR1]
            simp [hR1ne]
          · rfl
    · rfl

/-- Closed witness for C4: with R1 = 8 pending for F = 2, a claim carrying
R2 = 9's code is a no-op. -/
theorem C4_first_claim_wins_witness :
    alookup 2 (BotState.mk [(9, defaultUser 9)] [] [(2, 8)]).pending = some 8 ∧
    claimPending (BotState.mk [(9, defaultUser 9)] [] [(2, 8)]) 2 "REF9" =
      BotState.mk [(9, defaultUser 9)] [] [(2, 8)] := by
  have h := (C4_first_claim_wins (BotState.mk [(9, defaultUser 9)] [] [(2, 8)]) 2 "REF9").2
    8 (by decide) (by decide)
  exact ⟨by decide, h⟩

/-- **C6.** Membership probes fail closed: on an uncached check, a channel
whose probe timed out, errored, or was still pending when the overall
deadline cancelled it is reported in the missing list, and the check cannot
report all-joined — a probe failure never counts as membership. -/
theorem C6_membership_fail_closed (channels : List Channel)
    (probe : Channel → ProbeResult) (done : Channel → Bool) (c : Channel)
    (hc : c ∈ channels)
    (hfail : probe c = .timeout ∨ probe c = .err ∨ done c = false) :
    c ∈ (checkChannelMembership channels none probe done).2 ∧
    (checkChannelMembership channels none probe done).1 = false := by
  have hne : channels.isEmpty = false :=
    List.isEmpty_eq_false_iff_exists_mem.2 ⟨c, hc⟩
  have hres : (!(done c && checkSingleChannelFast (probe c))) = true := by
    rcases hfail with h | h | h <;> simp [h, checkSingleChannelFast]
  have hmem : c ∈ (checkChannelMembership channels none probe done).2 := by
    simp only [checkChannelMembership, hne, Bool.false_eq_true, if_false]
    exact List.mem_filter.2 ⟨hc, hres⟩
  refine ⟨hmem, ?_⟩
  simp only [checkChannelMembership, hne, Bool.false_eq_true, if_false] at hmem ⊢
  exact List.isEmpty_eq_false_iff_exists_mem.2 ⟨c, hmem⟩

/-- Closed witness for C6: the single configured channel's probe times out. -/
theorem C6_membership_fail_closed_witness :
    Channel.mk "@chA" "chA" ∈
      (checkChannelMembership [Channel.mk "@chA" "chA"] none
        (fun _ => ProbeResult.timeout) (fun _ => true)).2 ∧
    (checkChannelMembership [Channel.mk "@chA" "chA"] none
        (fun _ => ProbeResult.timeout) (fun _ => true)).1 = false :=
  C6_membership_fail_closed [Channel.mk "@chA" "chA"] (fun _ => ProbeResult.timeout)
    (fun _ => true) (Channel.mk "@chA" "chA") (by simp) (Or.inl rfl)

/-- **C7.** No ledger mutation in the not-joined branch: a start event with
no referral argument whose membership check reports not-all-joined (with a
nonempty missing list) leaves the user's balance, welcome flag and
transaction log exactly as before (for a brand-new user: balance 0, flag
false), and touches neither the referral map nor the pending map. -/
theorem C7_not_joined_no_ledger_mutation (s : BotState) (uid : Nat)
    (c : Channel) (cs : List Channel) :
    (viewUser (startCommand s uid none (.result false (c :: cs))) uid).balance =
      (viewUser s uid).balance ∧
    (viewUser (startCommand s uid none (.result false (c :: cs))) uid).welcome_bonus_received =
      (viewUser s uid).welcome_bonus_received ∧
    (viewUser (startCommand s uid none (.result false (c :: cs))) uid).transactions =
      (viewUser s uid).transactions ∧
    (startCommand s uid none (.result false (c :: cs))).referrals = s.referrals ∧
    (startCommand s uid none (.result false (c :: cs))).pending = s.pending ∧
    (alookup uid s.users = none →
      (viewUser (startCommand s uid none (.result false (c :: cs))) uid).balance = 0 ∧
      (viewUser (startCommand s uid none (.result false (c :: cs))) uid).welcome_bonus_received
        = false) := by
  have hstart : startCommand s uid none (.result false (c :: cs)) = (getUser s uid).2 := by
    simp [startCommand]
  rw [hstart]
  cases hu : alookup uid s.users with
  | some u =>
    rw [getUser_some hu]
    refine ⟨rfl, rfl, rfl, rfl, rfl, fun hnone => ?_⟩
    exact Option.noConfusion hnone
  | none =>
    rw [getUser_none hu]
    have hv : viewUser { s with users := upsert uid (defaultUser uid) s.users } uid =
        defaultUser uid := viewUser_some (alookup_upsert_self _ _ _)
    rw [hv, viewUser_none hu]
    exact ⟨rfl, rfl, rfl, rfl, rfl, fun _ => ⟨rfl, rfl⟩⟩

/-- Closed witness for C7: a fresh user in the empty state. -/
theorem C7_not_joined_no_ledger_mutation_witness :
    (viewUser (startCommand emptyState 6 none
        (.result false [Channel.mk "@chA" "chA"])) 6).balance = 0 ∧
    (viewUser (startCommand emptyState 6 none
        (.result false [Channel.mk "@chA" "chA"])) 6).welcome_bonus_received = false := by
  have h := C7_not_joined_no_ledger_mutation emptyState 6 (Channel.mk "@chA" "chA") []
  exact h.2.2.2.2.2 (by decide)

theorem promoteIfPending_success {s : BotState} {R F : Nat}
    (hRF : R ≠ F) (hR0 : R ≠ 0)
    (hpend : alookup F s.pending = some R)
    (hnotref : alookup F s.referrals = none) :
    promoteIfPending s F =
      ({ s with users := upsert R (referralUpdated (viewUser s R) F) s.users
                referrals := upsert F R s.referrals
                pending := eraseKey F s.pending }, true) := by
  unfold promoteIfPending getPendingReferrer
  rw [hpend]
  have hguard : R ≠ 0 ∧ ¬ isReferred s F = true := ⟨hR0, by simp [isReferred, hnotref]⟩
  show (if R ≠ 0 ∧ ¬ isReferred s F = true then
      (removePendingReferral (addReferral s R F).1 F, (addReferral s R F).2)
    else (s, false)) = _
  rw [if_pos hguard, addReferral_success hRF hnotref]
  rfl

/-- **C1.** Promotion of a pending referral: with a (nonzero) pending entry
`(R, F)`, `R ≠ F`, and `F` not yet completed-referred, the promotion step
returns `true`, writes the completed referral record `F ↦ R`, removes `F`'s
pending entry, credits `R`'s balance by exactly 1.0 with a matching 1.0
credit appended to `R`'s transaction log, increments `R`'s `referral_count`
and `total_earned` by 1 — and a second invocation for the same `F` returns
`false` and changes nothing, so the credit happens exactly once across
repeated invocations. -/
theorem C1_promotion_of_pending_referral (s : BotState) (R F : Nat)
    (hRF : R ≠ F) (hR0 : R ≠ 0)
    (hpend : alookup F s.pending = some R)
    (hnodup : (s.pending.map Prod.fst).Nodup)
    (hnotref : alookup F s.referrals = none) :
    (promoteIfPending s F).2 = true ∧
    alookup F (promoteIfPending s F).1.referrals = some R ∧
    getPendingReferrer (promoteIfPending s F).1 F = none ∧
    (viewUser (promoteIfPending s F).1 R).balance = (viewUser s R).balance + 1 ∧
    (viewUser (promoteIfPending s F).1 R).referral_count =
      (viewUser s R).referral_count + 1 ∧
    (viewUser (promoteIfPending s F).1 R).total_earned =
      (viewUser s R).total_earned + 1 ∧
    (viewUser (promoteIfPending s F).1 R).transactions.getLast? =
      some (nextTx (viewUser s R) 1 "credit" ("Referral bonus for user " ++ toString F)) ∧
    promoteIfPending (promoteIfPending s F).1 F = ((promoteIfPending s F).1, false) := by
  rw [promoteIfPending_success hRF hR0 hpend hnotref]
  have hv : viewUser
      { s with users := upsert R (referralUpdated (viewUser s R) F) s.users
               referrals := upsert F R s.referrals
               pending := eraseKey F s.pending } R =
      referralUpdated (viewUser s R) F := viewUser_some (alookup_upsert_self _ _ _)
  have herase : alookup F (eraseKey F s.pending) = none := alookup_eraseKey_self hnodup
  refine ⟨rfl, alookup_upsert_self _ _ _, herase, ?_, ?_, ?_, ?_, ?_⟩
  · rw [hv]; rfl
  · rw [hv]; rfl
  · rw [hv]; rfl
  · rw [hv]
    exact truncTx_append_getLast _ _
  · show promoteIfPending _ F = _
    unfold promoteIfPending getPendingReferrer
    rw [show ({ s with users := upsert R (referralUpdated (viewUser s R) F) s.users
                       referrals := upsert F R s.referrals
                       pending := eraseKey F s.pending } : BotState).pending =
        eraseKey F s.pending from rfl, herase]

/-- Closed witness for C1: user 2 has a pending referral from user 1. -/
theorem C1_promotion_of_pending_referral_witness :
    (promoteIfPending (BotState.mk [] [] [(2, 1)]) 2).2 = true ∧
    (viewUser (promoteIfPending (BotState.mk [] [] [(2, 1)]) 2).1 1).balance =
      (viewUser (BotState.mk [] [] [(2, 1)]) 1).balance + 1 := by
  have h := C1_promotion_of_pending_referral (BotState.mk [] [] [(2, 1)]) 1 2
    (by decide) (by decide) (by decide) (by decide) (by decide)
  exact ⟨h.1, h.2.2.2.1⟩

end EarningBot
